import Mathlib

/-!
Verification development for the Apple Health export parser
(`src/data/healthImport.ts` of the Moovit repository).

The TypeScript source is shallowly embedded:

* JS strings are `List Char` (keys that only need ordering become `String`);
* JS numbers are `JNum` — either `nan` or an exact rational.  The source only
  performs `+ * /`, `Math.round`, comparisons and truthiness tests on them, all
  of which are exact at the inputs the theorems use, so binary-float rounding
  is not modelled;
* the five regular expressions of the source are all of one restricted shape
  (literal head, `\s`, alternating lazy `[^>]*?lit` seeks and `([^"]*)"`
  captures, optional `[^>]*?\/?>` tail), embedded by a direct matcher for that
  shape with JS `exec`-loop semantics;
* `new Date(s).toISOString()` is modelled on the ECMA-262 UTC date-time form
  `"YYYY-MM-DDTHH:MM:SSZ"`; every other string is an invalid date in the
  model (invalid dates make `toISOString` throw, modelled with `Except`);
* thrown exceptions are `Except.error`, `Promise` structure is dropped.
-/

-- ============================================================================
-- JS numbers
-- ============================================================================

/-- A JavaScript number as used by the parser: `NaN` or an exact value.
Division by zero is mapped to `nan`; the source only ever compares such a
value with `<` (false for both `NaN` and `Infinity`), so the collapse is
observationally correct here. -/
inductive JNum where
  | nan
  | num (q : ℚ)
deriving DecidableEq

def JNum.mul : JNum → JNum → JNum
  | num a, num b => num (a * b)
  | _, _ => nan

def JNum.div : JNum → JNum → JNum
  | num a, num b => if b = 0 then nan else num (a / b)
  | _, _ => nan

/-- JS `<` on numbers: false whenever an operand is `NaN`. -/
def JNum.lt : JNum → JNum → Bool
  | num a, num b => decide (a < b)
  | _, _ => false

/-- JS truthiness of a number: `0` and `NaN` are falsy. -/
def JNum.truthy : JNum → Bool
  | nan => false
  | num q => decide (q ≠ 0)

/-- `Math.round` on an exact value: round half toward positive infinity. -/
def jsRoundQ (q : ℚ) : ℤ := ⌊q + 1 / 2⌋

/-- `Math.round` on a JS number (`Math.round(NaN)` is `NaN`). -/
def JNum.jsRound : JNum → JNum
  | nan => nan
  | num q => num (jsRoundQ q)

/-- Truthiness of a `number | null` value (`null` is falsy). -/
def optTruthy : Option JNum → Bool
  | some v => v.truthy
  | none => false

/-- JS `a || b` on `number | null` operands. -/
def jsOrNum (a b : Option JNum) : Option JNum :=
  if optTruthy a then a else b

-- ============================================================================
-- parseFloat
-- ============================================================================

def digitVal (c : Char) : ℚ := ((c.toNat - 48 : ℕ) : ℚ)

def digitsVal (ds : List Char) : ℚ := ds.foldl (fun acc c => acc * 10 + digitVal c) 0

def fracVal (ds : List Char) : ℚ := ds.foldr (fun c acc => (digitVal c + acc) / 10) 0

/-- JS `parseFloat`, restricted to the `[+-]? digits [. digits]?` prefix forms
(the exponent, `Infinity` and leading-whitespace forms never occur in the
documents considered); a string with no numeric prefix parses to `NaN`. -/
def parseFloat (s : List Char) : JNum :=
  let p : ℚ × List Char :=
    match s with
    | '-' :: t => (-1, t)
    | '+' :: t => (1, t)
    | _ => (1, s)
  let ds := p.2.takeWhile Char.isDigit
  let rest := p.2.drop ds.length
  let fs : List Char :=
    match rest with
    | '.' :: t => t.takeWhile Char.isDigit
    | _ => []
  if ds.isEmpty && fs.isEmpty then .nan
  else .num (p.1 * (digitsVal ds + fracVal fs))

-- ============================================================================
-- JS Date model
-- ============================================================================

/-- Days from 1970-01-01 to the civil date `y-m-d` (proleptic Gregorian). -/
def daysFromCivil (y m d : ℤ) : ℤ :=
  let y2 : ℤ := if m ≤ 2 then y - 1 else y
  let era : ℤ := Int.fdiv (if y2 ≥ 0 then y2 else y2 - 399) 400
  let yoe : ℤ := y2 - era * 400
  let mp : ℤ := if m > 2 then m - 3 else m + 9
  let doy : ℤ := Int.fdiv (153 * mp + 2) 5 + d - 1
  let doe : ℤ := yoe * 365 + Int.fdiv yoe 4 - Int.fdiv yoe 100 + doy
  era * 146097 + doe - 719468

def twoDigits (a b : Char) : Option ℕ :=
  if a.isDigit && b.isDigit then some ((a.toNat - 48) * 10 + (b.toNat - 48)) else none

def fourDigits (a b c d : Char) : Option ℕ := do
  let hi ← twoDigits a b
  let lo ← twoDigits c d
  pure (hi * 100 + lo)

def isLeapYear (y : ℕ) : Bool := y % 4 = 0 && (y % 100 ≠ 0 || y % 400 = 0)

def daysInMonth (y m : ℕ) : ℕ :=
  if m = 2 then (if isLeapYear y then 29 else 28)
  else if m = 4 || m = 6 || m = 9 || m = 11 then 30
  else 31

/-- `Date.parse` / `new Date(string).getTime()`, restricted to the ECMA-262
UTC date-time form `"YYYY-MM-DDTHH:MM:SSZ"`; any other string is an invalid
date in this model.  Returns epoch milliseconds. -/
def jsParseDate (s : List Char) : Option ℤ :=
  match s with
  | [y1, y2, y3, y4, '-', mo1, mo2, '-', d1, d2, 'T',
     h1, h2, ':', mi1, mi2, ':', se1, se2, 'Z'] => do
    let y ← fourDigits y1 y2 y3 y4
    let mo ← twoDigits mo1 mo2
    let d ← twoDigits d1 d2
    let h ← twoDigits h1 h2
    let mi ← twoDigits mi1 mi2
    let se ← twoDigits se1 se2
    if 1 ≤ mo ∧ mo ≤ 12 ∧ 1 ≤ d ∧ d ≤ daysInMonth y mo ∧ h ≤ 23 ∧ mi ≤ 59 ∧ se ≤ 59 then
      some (daysFromCivil y mo d * 86400000
        + (h * 3600000 + mi * 60000 + se * 1000 : ℕ))
    else none
  | _ => none

/-- `new Date(s).toISOString().split('T')[0]`: on the modelled UTC form the
date part of the ISO string is exactly the first ten characters of the input
(the time-of-day is below 24h and the offset is zero, so no day rollover);
an unparsable string gives `none` (`toISOString` would throw). -/
def jsToIsoDateKey (s : List Char) : Option (List Char) :=
  (jsParseDate s).map (fun _ => s.take 10)

-- ============================================================================
-- Pattern matcher for the source's regular expressions
-- ============================================================================

/-- Is `pat` a prefix of `s` at position `i`? -/
def isPrefixAt (s pat : List Char) (i : ℕ) : Bool :=
  pat.isPrefixOf (s.drop i)

/-- Fuel-based worker for `lazySeek` (structural recursion keeps the
definition kernel-reducible; the position advances by one per step and the
scan stops at the end of `s`, so fuel `s.length + 1` is never exhausted). -/
def lazySeekAux (s pat : List Char) : ℕ → ℕ → Option ℕ
  | 0, _ => none
  | fuel + 1, i =>
    if isPrefixAt s pat i then some (i + pat.length)
    else if h : i < s.length then
      if s.get ⟨i, h⟩ = '>' then none
      else lazySeekAux s pat fuel (i + 1)
    else none

/-- `[^>]*?lit`: the lazy scan succeeds at the first occurrence of `lit`
reachable without crossing a `>`, returning the position just after it. -/
def lazySeek (s pat : List Char) (i : ℕ) : Option ℕ :=
  lazySeekAux s pat (s.length + 1) i

/-- Fuel-based worker for `lazyTail`; same fuel regime as `lazySeekAux`. -/
def lazyTailAux (s : List Char) : ℕ → ℕ → Option ℕ
  | 0, _ => none
  | fuel + 1, i =>
    if isPrefixAt s ['/', '>'] i then some (i + 2)
    else if h : i < s.length then
      if s.get ⟨i, h⟩ = '>' then some (i + 1)
      else lazyTailAux s fuel (i + 1)
    else none

/-- `[^>]*?\/?>`: ends just after the first `>`, absorbing an immediately
preceding `/`. -/
def lazyTail (s : List Char) (i : ℕ) : Option ℕ :=
  lazyTailAux s (s.length + 1) i

/-- `([^"]*)"`: capture up to the next double quote, consume the quote. -/
def capQuoted (s : List Char) (i : ℕ) : Option (List Char × ℕ) :=
  let pre := (s.drop i).takeWhile (fun c => c != '"')
  if i + pre.length < s.length then some (pre, i + pre.length + 1) else none

inductive RxItem where
  | seek (lit : List Char)
  | cap

/-- The common shape of the source's record regexes: a literal head, an
optional `\s`, a sequence of lazy seeks and quoted captures, and an optional
`[^>]*?\/?>` tail. -/
structure RxPat where
  head : List Char
  headSpace : Bool
  items : List RxItem
  tail : Bool

def matchItems (s : List Char) : List RxItem → ℕ → Option (List (List Char) × ℕ)
  | [], i => some ([], i)
  | .seek lit :: rest, i => (lazySeek s lit i).bind (matchItems s rest)
  | .cap :: rest, i =>
    (capQuoted s i).bind fun pr =>
      (matchItems s rest pr.2).map fun r => (pr.1 :: r.1, r.2)

def matchPatAt (p : RxPat) (s : List Char) (i : ℕ) : Option (List (List Char) × ℕ) :=
  if isPrefixAt s p.head i then
    let afterHead : Option ℕ :=
      if p.headSpace then
        match (s.drop (i + p.head.length)).head? with
        | some c => if c.isWhitespace then some (i + p.head.length + 1) else none
        | none => none
      else some (i + p.head.length)
    afterHead.bind fun j =>
      (matchItems s p.items j).bind fun r =>
        if p.tail then (lazyTail s r.2).map fun e => (r.1, e)
        else some r
  else none

/-- Fuel-based worker for `findMatchFrom`; same fuel regime as
`lazySeekAux`. -/
def findMatchFromAux (p : RxPat) (s : List Char) :
    ℕ → ℕ → Option (ℕ × List (List Char) × ℕ)
  | 0, _ => none
  | fuel + 1, i =>
    match matchPatAt p s i with
    | some r => some (i, r.1, r.2)
    | none => if i < s.length then findMatchFromAux p s fuel (i + 1) else none

/-- Leftmost match attempt from position `i` on: JS regex scanning. -/
def findMatchFrom (p : RxPat) (s : List Char) (i : ℕ) :
    Option (ℕ × List (List Char) × ℕ) :=
  findMatchFromAux p s (s.length + 1) i

/-- One match of a global regex: start index, captured groups, end index. -/
structure MatchRes where
  index : ℕ
  caps : List (List Char)
  endIdx : ℕ
deriving DecidableEq

/-- The `while ((match = RX.exec(chunk)) !== null)` loop of a `/g` regex.
Every pattern here consumes at least one character, so at most `s.length`
matches exist and the fuel `s.length + 1` is never exhausted. -/
def execAllAux (p : RxPat) (s : List Char) : ℕ → ℕ → List MatchRes
  | 0, _ => []
  | fuel + 1, i =>
    match findMatchFrom p s i with
    | some r => ⟨r.1, r.2.1, r.2.2⟩ :: execAllAux p s fuel r.2.2
    | none => []

def execAll (p : RxPat) (s : List Char) : List MatchRes :=
  execAllAux p s (s.length + 1) 0

/-- JS `String.prototype.lastIndexOf` (whole-string search). -/
def lastIndexOf (s pat : List Char) : Option ℕ :=
  ((List.range (s.length + 1)).filter (fun i => isPrefixAt s pat i)).getLast?

/-- JS `String.prototype.indexOf(pat, start)`, `-1` when absent. -/
def indexOfFrom (s pat : List Char) (start : ℕ) : ℤ :=
  match ((List.range (s.length + 1)).filter
      (fun i => decide (start ≤ i) && isPrefixAt s pat i)).head? with
  | some i => (i : ℤ)
  | none => -1

/-- JS `String.prototype.substring(a, b)` for `a ≤ b`. -/
def jsSubstring (s : List Char) (a b : ℕ) : List Char := (s.take b).drop a

-- ============================================================================
-- Domain types (shapes as constructed by the extractors)
-- ============================================================================

/-- One extracted workout (`WorkoutSession` as built by the source).
`startedAt`/`completedAt` hold `new Date(...).toISOString()` values,
represented by their epoch-millisecond timestamps (`toISOString` is injective
and `new Date(iso).getTime()` recovers exactly this value).  The single
synthetic block is represented by its `type` tag (`blockType`); the freshly
generated random `id`s carry no information and are omitted. -/
structure WorkoutSession where
  name : String
  blockType : String
  startedAt : ℤ
  completedAt : ℤ
  totalDuration : JNum
  overallEffort : Option ℕ
  cardioType : Option String
  distance : Option JNum
deriving DecidableEq

structure BodyMetric where
  date : String
  weight : Option JNum := none
  bodyFat : Option JNum := none
  srcTag : String := "apple_health"
deriving DecidableEq

structure ActivityDay where
  date : String
  activeEnergy : JNum
  exerciseMinutes : JNum
  standHours : JNum
deriving DecidableEq

structure HealthImportResult where
  workouts : List WorkoutSession
  bodyMetrics : List BodyMetric
  activityDays : List ActivityDay
deriving DecidableEq

inductive Phase where
  | reading
  | parsing
  | done
deriving DecidableEq

/-- `ParseProgress` (the free-text `detail` string carries no specified
content and is not modelled). -/
structure ParseProgress where
  phase : Phase
  percent : ℤ
deriving DecidableEq

/-- Exceptions observable from the parser: the `RangeError` thrown by
`toISOString()` on an invalid date. -/
inductive JsErr where
  | invalidTime
deriving DecidableEq

-- ============================================================================
-- WORKOUT_TYPE_MAP
-- ============================================================================

structure WorkoutTypeMapping where
  name : String
  cardioType : Option String := none
  blockType : String
deriving DecidableEq

def WORKOUT_TYPE_MAP : List (String × WorkoutTypeMapping) :=
  [("HKWorkoutActivityTypeRunning", { name := "Run", cardioType := some "run", blockType := "cardio" }),
   ("HKWorkoutActivityTypeWalking", { name := "Walk", cardioType := some "walk", blockType := "cardio" }),
   ("HKWorkoutActivityTypeHiking", { name := "Hike", cardioType := some "hike", blockType := "cardio" }),
   ("HKWorkoutActivityTypeCycling", { name := "Cycling", blockType := "cardio" }),
   ("HKWorkoutActivityTypeTraditionalStrengthTraining", { name := "Strength Training", blockType := "strength" }),
   ("HKWorkoutActivityTypeFunctionalStrengthTraining", { name := "Functional Training", blockType := "strength" }),
   ("HKWorkoutActivityTypeYoga", { name := "Yoga", blockType := "cooldown" }),
   ("HKWorkoutActivityTypeHighIntensityIntervalTraining", { name := "HIIT", blockType := "conditioning" }),
   ("HKWorkoutActivityTypeRowing", { name := "Rowing", blockType := "cardio" }),
   ("HKWorkoutActivityTypeCoreTraining", { name := "Core Training", blockType := "strength" }),
   ("HKWorkoutActivityTypeFlexibility", { name := "Flexibility", blockType := "cooldown" }),
   ("HKWorkoutActivityTypePilates", { name := "Pilates", blockType := "strength" }),
   ("HKWorkoutActivityTypeElliptical", { name := "Elliptical", blockType := "cardio" }),
   ("HKWorkoutActivityTypeStairClimbing", { name := "Stair Climbing", blockType := "cardio" }),
   ("HKWorkoutActivityTypeCrossTraining", { name := "Cross Training", blockType := "conditioning" }),
   ("HKWorkoutActivityTypeMixedCardio", { name := "Mixed Cardio", blockType := "cardio" }),
   ("HKWorkoutActivityTypeSwimming", { name := "Swimming", blockType := "cardio" }),
   ("HKWorkoutActivityTypeDance", { name := "Dance", blockType := "conditioning" }),
   ("HKWorkoutActivityTypeCooldown", { name := "Cooldown", blockType := "cooldown" }),
   ("HKWorkoutActivityTypeTrailRunning", { name := "Trail Run", cardioType := some "trail-run", blockType := "cardio" })]

def lookupWorkoutType (k : String) : Option WorkoutTypeMapping :=
  (WORKOUT_TYPE_MAP.find? (fun p => p.1 == k)).map Prod.snd

/-- First occurrence of `pat` in `s` (for `String.prototype.replace` with a
plain-string pattern, which replaces only the first occurrence). -/
def firstIndexOfOpt (s pat : List Char) : Option ℕ :=
  ((List.range (s.length + 1)).filter (fun i => isPrefixAt s pat i)).head?

def replaceFirstByEmpty (s pat : List Char) : List Char :=
  match firstIndexOfOpt s pat with
  | some i => s.take i ++ s.drop (i + pat.length)
  | none => s

/-- `formatActivityType`: strip the first `HKWorkoutActivityType`, put a
space before every capital (`replace(/([A-Z])/g, ' $1')`), trim. -/
def formatActivityType (t : List Char) : List Char :=
  let stripped := replaceFirstByEmpty t "HKWorkoutActivityType".data
  let spaced := stripped.foldr (fun c acc => if c.isUpper then ' ' :: c :: acc else c :: acc) []
  (spaced.dropWhile Char.isWhitespace).reverse.dropWhile Char.isWhitespace |>.reverse

-- ============================================================================
-- Converters
-- ============================================================================

/-- km→mi factor `0.621371` of the source. -/
def kmToMi : ℚ := 621371 / 1000000

/-- kg→lb factor `2.20462` of the source. -/
def kgToLb : ℚ := 220462 / 100000

/-- Duration-to-seconds conversion of `extractWorkoutsFromChunk`:
`if (durationUnit === 'min') durationSeconds *= 60;
 else if (durationUnit === 'hr') durationSeconds *= 3600;`. -/
def secondsFromDuration (v : JNum) (unit : List Char) : JNum :=
  if unit = "min".data then v.mul (.num 60)
  else if unit = "hr".data then v.mul (.num 3600)
  else v

/-- The duration multiplier applied by `secondsFromDuration`. -/
def unitFactor (unit : List Char) : ℚ :=
  if unit = "min".data then 60 else if unit = "hr".data then 3600 else 1

/-- `estimateEffort` of the source. -/
def estimateEffort (activeCalories durationSeconds : JNum) : ℕ :=
  let calPerMin := activeCalories.div (durationSeconds.div (.num 60))
  if calPerMin.lt (.num 3) then 2
  else if calPerMin.lt (.num 5) then 3
  else if calPerMin.lt (.num 7) then 4
  else if calPerMin.lt (.num 9) then 5
  else if calPerMin.lt (.num 11) then 6
  else if calPerMin.lt (.num 13) then 7
  else if calPerMin.lt (.num 15) then 8
  else if calPerMin.lt (.num 18) then 9
  else 10

-- ============================================================================
-- Metadata extraction (`extractMetadataValue`)
-- ============================================================================

/-- The dynamically built pattern `type="ID"[^>]*?ATTR="([^"]*)"`. -/
def metaPat (id attr : List Char) : RxPat :=
  { head := "type=\"".data ++ id ++ "\"".data
    headSpace := false
    items := [.seek (attr ++ "=\"".data), .cap]
    tail := false }

def distWalkRunId : List Char := "HKQuantityTypeIdentifierDistanceWalkingRunning".data
def distCyclingId : List Char := "HKQuantityTypeIdentifierDistanceCycling".data
def activeEnergyId : List Char := "HKQuantityTypeIdentifierActiveEnergyBurned".data

def extractMetadataValue (context id : List Char) : Option JNum :=
  match findMatchFrom (metaPat id "sum".data) context 0 with
  | some r => some (parseFloat (r.2.1.getD 0 []))
  | none =>
    match findMatchFrom (metaPat id "quantity".data) context 0 with
    | some r => some (parseFloat (r.2.1.getD 0 []))
    | none => none

-- ============================================================================
-- Workout extraction
-- ============================================================================

def workoutPat : RxPat :=
  { head := "<Workout".data
    headSpace := true
    items := [.seek "workoutActivityType=\"".data, .cap,
              .seek "duration=\"".data, .cap,
              .seek "durationUnit=\"".data, .cap,
              .seek "startDate=\"".data, .cap,
              .seek "endDate=\"".data, .cap]
    tail := true }

def workoutCloseTag : List Char := "</Workout>".data

/-- The textual neighbourhood searched for auxiliary fields: from the match
start to the matching `</Workout>` close (inclusive), else the full match. -/
def contextOf (chunk : List Char) (m : MatchRes) : List Char :=
  let contextEnd := indexOfFrom chunk workoutCloseTag m.index
  if (m.index : ℤ) < contextEnd then
    jsSubstring chunk m.index (contextEnd.toNat + workoutCloseTag.length)
  else
    jsSubstring chunk m.index m.endIdx

/-- `distance = extractMetadataValue(ctx, WalkingRunning) || extractMetadataValue(ctx, Cycling)`. -/
def workoutDistance (ctx : List Char) : Option JNum :=
  jsOrNum (extractMetadataValue ctx distWalkRunId) (extractMetadataValue ctx distCyclingId)

/-- The `WorkoutSession` object literal built for one regex match (all parts
that cannot throw; the two `toISOString()` timestamps are passed in). -/
def buildSession (chunk : List Char) (m : MatchRes) (t1 t2 : ℤ) : WorkoutSession :=
  let activityType := m.caps.getD 0 []
  let mapping := (lookupWorkoutType (String.mk activityType)).getD
    { name := String.mk (formatActivityType activityType), blockType := "conditioning" }
  let durationSeconds := secondsFromDuration (parseFloat (m.caps.getD 1 [])) (m.caps.getD 2 [])
  let ctx := contextOf chunk m
  let distance := workoutDistance ctx
  let energy := extractMetadataValue ctx activeEnergyId
  let distanceMiles : Option JNum :=
    if optTruthy distance then some ((distance.getD .nan).mul (.num kmToMi)) else none
  let effort : Option ℕ :=
    if optTruthy energy then some (estimateEffort (energy.getD .nan) durationSeconds) else none
  { name := mapping.name
    blockType := mapping.blockType
    startedAt := t1
    completedAt := t2
    totalDuration := durationSeconds.jsRound
    overallEffort :=
      match effort with
      | some e => if e ≠ 0 then some e else none
      | none => none
    cardioType :=
      match mapping.cardioType with
      | some c => if c ≠ "" then some c else none
      | none => none
    distance :=
      match distanceMiles with
      | some d => if d.truthy then some (((d.mul (.num 100)).jsRound).div (.num 100)) else none
      | none => none }

/-- Process one `WORKOUT_REGEX` match; `new Date(startDate).toISOString()`
throws on an invalid date (and is evaluated before the `endDate` one). -/
def processWorkoutMatch (chunk : List Char) (m : MatchRes) : Except JsErr WorkoutSession :=
  match jsParseDate (m.caps.getD 3 []) with
  | none => .error .invalidTime
  | some t1 =>
    match jsParseDate (m.caps.getD 4 []) with
    | none => .error .invalidTime
    | some t2 => .ok (buildSession chunk m t1 t2)

def processWorkoutMatches (chunk : List Char) :
    List MatchRes → List WorkoutSession → Except JsErr (List WorkoutSession)
  | [], ws => .ok ws
  | m :: ms, ws =>
    (processWorkoutMatch chunk m).bind fun s => processWorkoutMatches chunk ms (ws ++ [s])

def extractWorkoutsFromChunk (chunk : List Char) (workouts : List WorkoutSession) :
    Except JsErr (List WorkoutSession) :=
  processWorkoutMatches chunk (execAll workoutPat chunk) workouts

-- ============================================================================
-- Body-metric extraction
-- ============================================================================

def bodyMassPat : RxPat :=
  { head := "<Record".data
    headSpace := true
    items := [.seek "type=\"HKQuantityTypeIdentifierBodyMass\"".data,
              .seek "value=\"".data, .cap,
              .seek "unit=\"".data, .cap,
              .seek "startDate=\"".data, .cap]
    tail := true }

def bodyFatPat : RxPat :=
  { head := "<Record".data
    headSpace := true
    items := [.seek "type=\"HKQuantityTypeIdentifierBodyFatPercentage\"".data,
              .seek "value=\"".data, .cap,
              .seek "startDate=\"".data, .cap]
    tail := true }

/-- Insertion-ordered map, as a JS `Map`: `set` updates in place, else
appends. -/
def mapGet (m : List (String × BodyMetric)) (k : String) : Option BodyMetric :=
  (m.find? (fun p => p.1 == k)).map Prod.snd

def mapSet (m : List (String × BodyMetric)) (k : String) (v : BodyMetric) :
    List (String × BodyMetric) :=
  match m with
  | [] => [(k, v)]
  | p :: t => if p.1 = k then (k, v) :: t else p :: mapSet t k v

/-- `Math.round(x * 10) / 10`. -/
def round1 (v : JNum) : JNum := ((v.mul (.num 10)).jsRound).div (.num 10)

/-- The body-mass loop: weight from `value`/`unit`, date key from
`new Date(match[3]).toISOString().split('T')[0]` (throws on invalid date). -/
def applyMassMatches : List MatchRes → List (String × BodyMetric) →
    Except JsErr (List (String × BodyMetric))
  | [], m => .ok m
  | r :: rs, m =>
    let w0 := parseFloat (r.caps.getD 0 [])
    let w := if r.caps.getD 1 [] = "kg".data then w0.mul (.num kgToLb) else w0
    match (r.caps.get? 2).bind jsToIsoDateKey with
    | none => .error .invalidTime
    | some dk =>
      let date := String.mk dk
      let existing := (mapGet m date).getD { date := date }
      applyMassMatches rs (mapSet m date { existing with weight := some (round1 w) })

/-- The body-fat loop.  The source destructures
`const [, valueStr,, dateStr] = match`, i.e. reads the date from capture
group 3 — but `BODY_FAT_REGEX` only has two capture groups, so `dateStr` is
`undefined` and `new Date(undefined).toISOString()` throws. -/
def applyFatMatches : List MatchRes → List (String × BodyMetric) →
    Except JsErr (List (String × BodyMetric))
  | [], m => .ok m
  | r :: rs, m =>
    let bf := (parseFloat (r.caps.getD 0 [])).mul (.num 100)
    match (r.caps.get? 2).bind jsToIsoDateKey with
    | none => .error .invalidTime
    | some dk =>
      let date := String.mk dk
      let existing := (mapGet m date).getD { date := date }
      applyFatMatches rs (mapSet m date { existing with bodyFat := some (round1 bf) })

def extractBodyMetricsFromChunk (chunk : List Char) (metrics : List (String × BodyMetric)) :
    Except JsErr (List (String × BodyMetric)) :=
  (applyMassMatches (execAll bodyMassPat chunk) metrics).bind
    (applyFatMatches (execAll bodyFatPat chunk))

-- ============================================================================
-- Activity-summary extraction
-- ============================================================================

def activitySummaryPat : RxPat :=
  { head := "<ActivitySummary".data
    headSpace := true
    items := [.seek "dateComponents=\"".data, .cap,
              .seek "activeEnergyBurned=\"".data, .cap,
              .seek "appleExerciseTime=\"".data, .cap,
              .seek "appleStandHours=\"".data, .cap]
    tail := true }

def extractActivityDaysFromChunk (chunk : List Char) (days : List ActivityDay) :
    List ActivityDay :=
  days ++ (execAll activitySummaryPat chunk).map (fun r =>
    { date := String.mk (r.caps.getD 0 [])
      activeEnergy := (parseFloat (r.caps.getD 1 [])).jsRound
      exerciseMinutes := (parseFloat (r.caps.getD 2 [])).jsRound
      standHours := (parseFloat (r.caps.getD 3 [])).jsRound })

-- ============================================================================
-- Chunked document scanner
-- ============================================================================

def selfCloseTag : List Char := "/>".data

/-- The split-point computation of the scanner loop:
the later of (end of last `/>`) and (end of last `</Workout>`), `-1` parts
when a pattern is absent. -/
def safeSplitAt (text : List Char) : ℤ :=
  let lastWorkoutClose := lastIndexOf text workoutCloseTag
  let lastSelfClose := lastIndexOf text selfCloseTag
  max
    (match lastSelfClose with
     | some i => (i : ℤ) + 2
     | none => -1)
    (match lastWorkoutClose with
     | some i => (i : ℤ) + (workoutCloseTag.length : ℤ)
     | none => -1)

/-- `file.slice(offset, min(offset + CHUNK_SIZE, size))` for every loop
iteration, as a list of size-`k` slices of the file's byte sequence
(fuel = sequence length; one slice is produced per step for any positive
chunk size, so the fuel suffices).  Generic in the element type: the
byte-accurate pipeline slices the byte list, and `parseHealthExport` below
uses the same slicing on characters. -/
def chunksOfAux {α : Type} (k : ℕ) : ℕ → List α → List (List α)
  | 0, _ => []
  | _, [] => []
  | fuel + 1, c :: t => ((c :: t).take k) :: chunksOfAux k fuel ((c :: t).drop k)

def chunksOf {α : Type} (k : ℕ) (l : List α) : List (List α) := chunksOfAux k l.length l

/-- The scanner loop: carry-over `remainder`, consumed-byte counter; emits
`(fragment, bytesConsumed)` pairs.  A non-final chunk with no safe split
point emits nothing and keeps accumulating; the final chunk is emitted
whole. -/
def scanPairs : List (List Char) → List Char → ℕ → List (List Char × ℕ)
  | [], _, _ => []
  | [c], remainder, consumed => [(remainder ++ c, consumed + c.length)]
  | c :: c2 :: cs, remainder, consumed =>
    let text := remainder ++ c
    let s := safeSplitAt text
    if 0 < s then
      (text.take s.toNat, consumed + c.length)
        :: scanPairs (c2 :: cs) (text.drop s.toNat) (consumed + c.length)
    else
      scanPairs (c2 :: cs) text (consumed + c.length)

/-- `Math.round((end / file.size) * 95)`. -/
def pct95 (e size : ℕ) : ℤ := jsRoundQ (((e : ℚ) / (size : ℚ)) * 95)

/-- The progress reports of one complete run: the initial 0% report, one
report per emitted fragment, the final done report. -/
def parseReports (doc : List Char) (k : ℕ) : List ParseProgress :=
  ⟨.parsing, 0⟩ ::
    (scanPairs (chunksOf k doc) [] 0).map (fun p => ⟨.parsing, pct95 p.2 doc.length⟩)
    ++ [⟨.done, 100⟩]

-- ============================================================================
-- Orchestrator
-- ============================================================================

structure Accums where
  workouts : List WorkoutSession
  metrics : List (String × BodyMetric)
  days : List ActivityDay

/-- Run the three extractors on one fragment, in source order. -/
def extractAllFragment (frag : List Char) (acc : Accums) : Except JsErr Accums := do
  let ws ← extractWorkoutsFromChunk frag acc.workouts
  let mm ← extractBodyMetricsFromChunk frag acc.metrics
  .ok { workouts := ws, metrics := mm, days := extractActivityDaysFromChunk frag acc.days }

def extractFragments : List (List Char) → Accums → Except JsErr Accums
  | [], acc => .ok acc
  | f :: fs, acc => (extractAllFragment f acc).bind (extractFragments fs)

/-- The final sort step.  `workouts.sort((a, b) => Date(a).getTime() - ...)`
and the two `localeCompare` sorts are modelled by sorting with the
comparator's order (the comparators are consistent total preorders, so the
JS sort result is exactly a sorted permutation; `localeCompare` on the
digit/hyphen date keys coincides with lexicographic string order). -/
def finalize (acc : Accums) : HealthImportResult :=
  { workouts := List.insertionSort (fun a b => a.startedAt ≤ b.startedAt) acc.workouts
    bodyMetrics := List.insertionSort (fun a b => a.date ≤ b.date) (acc.metrics.map Prod.snd)
    activityDays := List.insertionSort (fun a b => a.date ≤ b.date) acc.days }

/-- `parseHealthExport`, for a document already read as text and a chunk size
`k` (the source fixes `k = CHUNK_SIZE = 10 MiB`; boundary-safety is claimed
for every positive `k`).  The source interleaves extraction and progress in
one loop; extraction cannot influence fragment boundaries or percentages, so
the model factors the loop into the pure scanner, the extractor fold and the
report list.  The file-extension checks precede everything modelled here. -/
def parseHealthExport (doc : List Char) (k : ℕ) :
    Except JsErr (HealthImportResult × List ParseProgress) :=
  match extractFragments ((scanPairs (chunksOf k doc) [] 0).map Prod.fst)
      ⟨[], [], []⟩ with
  | .error e => .error e
  | .ok acc => .ok (finalize acc, parseReports doc k)


-- ============================================================================
-- UTF-8 byte layer
-- ============================================================================

/-!
The source slices the `File` by BYTES (`file.slice(offset, end)`) and decodes
every slice to text independently (`slice.text()`, the WHATWG UTF-8 decoder
in replacement mode).  A multi-byte character straddling a slice boundary is
therefore decoded as U+FFFD replacement characters.  This section models the
byte content of the text file (its UTF-8 encoding) and the WHATWG decoder,
and `sliceFragments` exposes the scanner's fragment stream at this
byte-accurate granularity.
-/

/-- U+FFFD, the replacement character emitted for ill-formed input. -/
def replChar : Char := '\uFFFD'

/-- The UTF-8 encoding of one scalar value (1-4 bytes, as natural numbers). -/
def encChar (c : Char) : List ℕ :=
  let n := c.toNat
  if n < 0x80 then [n]
  else if n < 0x800 then [0xC0 + n / 64, 0x80 + n % 64]
  else if n < 0x10000 then [0xE0 + n / 4096, 0x80 + n / 64 % 64, 0x80 + n % 64]
  else [0xF0 + n / 262144, 0x80 + n / 4096 % 64, 0x80 + n / 64 % 64, 0x80 + n % 64]

/-- The byte content of a text file holding `s`. -/
def utf8Encode : List Char → List ℕ
  | [] => []
  | c :: t => encChar c ++ utf8Encode t

/-- The WHATWG UTF-8 decoder state: pending code point, continuation bytes
still needed, and the admissible range for the next byte. -/
structure Utf8State where
  codePoint : ℕ
  bytesNeeded : ℕ
  lower : ℕ
  upper : ℕ
deriving DecidableEq

def utf8Init : Utf8State := ⟨0, 0, 0x80, 0xBF⟩

/-- Handling of a byte in the initial state (a lead byte or an error). -/
def processLead (b : ℕ) : Utf8State × List Char :=
  if b ≤ 0x7F then (utf8Init, [Char.ofNat b])
  else if 0xC2 ≤ b ∧ b ≤ 0xDF then (⟨b - 0xC0, 1, 0x80, 0xBF⟩, [])
  else if 0xE0 ≤ b ∧ b ≤ 0xEF then
    (⟨b - 0xE0, 2, if b = 0xE0 then 0xA0 else 0x80, if b = 0xED then 0x9F else 0xBF⟩, [])
  else if 0xF0 ≤ b ∧ b ≤ 0xF4 then
    (⟨b - 0xF0, 3, if b = 0xF0 then 0x90 else 0x80, if b = 0xF4 then 0x8F else 0xBF⟩, [])
  else (utf8Init, [replChar])

/-- One step of the WHATWG UTF-8 decoder.  On an out-of-range continuation
byte it emits U+FFFD and reprocesses the byte in the (reset) initial state —
the specification's "restore the byte to the stream". -/
def utf8Step (st : Utf8State) (b : ℕ) : Utf8State × List Char :=
  if st.bytesNeeded = 0 then processLead b
  else if st.lower ≤ b ∧ b ≤ st.upper then
    let cp := st.codePoint * 64 + (b - 0x80)
    if st.bytesNeeded = 1 then (utf8Init, [Char.ofNat cp])
    else (⟨cp, st.bytesNeeded - 1, 0x80, 0xBF⟩, [])
  else
    let r := processLead b
    (r.1, replChar :: r.2)

def utf8DecodeFrom (st : Utf8State) : List ℕ → List Char
  | [] => if st.bytesNeeded ≠ 0 then [replChar] else []
  | b :: rest => (utf8Step st b).2 ++ utf8DecodeFrom (utf8Step st b).1 rest

/-- `slice.text()`: WHATWG UTF-8 decode in replacement mode (a sequence left
incomplete at the end of the slice also becomes U+FFFD). -/
def utf8Decode (bs : List ℕ) : List Char := utf8DecodeFrom utf8Init bs

/-- The fragment stream of the scanner loop at the source's true
granularity: the file's UTF-8 bytes are sliced every `k` bytes, each slice
is decoded to text independently, and the decoded texts flow through the
carry-over scanner.  (`parseHealthExport` above idealizes the slicing to
character granularity, which the report- and result-shaped properties do
not distinguish; boundary safety does, and is stated about this
definition.) -/
def sliceFragments (doc : List Char) (k : ℕ) : List (List Char) :=
  ((scanPairs ((chunksOf k (utf8Encode doc)).map utf8Decode) [] 0).map Prod.fst)

-- ============================================================================
-- Helper lemmas
-- ============================================================================

theorem secondsFromDuration_num (q : ℚ) (u : List Char) :
    secondsFromDuration (.num q) u = .num (q * unitFactor u) := by
  unfold secondsFromDuration unitFactor
  split_ifs <;> simp [JNum.mul]

theorem secondsFromDuration_nan (u : List Char) :
    secondsFromDuration .nan u = .nan := by
  unfold secondsFromDuration
  split_ifs <;> rfl

theorem unitFactor_pos (u : List Char) : 0 < unitFactor u := by
  unfold unitFactor
  split_ifs <;> norm_num

theorem buildSession_startedAt (chunk : List Char) (m : MatchRes) (t1 t2 : ℤ) :
    (buildSession chunk m t1 t2).startedAt = t1 := rfl

theorem buildSession_completedAt (chunk : List Char) (m : MatchRes) (t1 t2 : ℤ) :
    (buildSession chunk m t1 t2).completedAt = t2 := rfl

theorem buildSession_totalDuration (chunk : List Char) (m : MatchRes) (t1 t2 : ℤ) :
    (buildSession chunk m t1 t2).totalDuration
      = (secondsFromDuration (parseFloat (m.caps.getD 1 [])) (m.caps.getD 2 [])).jsRound := rfl

theorem processWorkoutMatch_ok (chunk : List Char) (m : MatchRes) (t1 t2 : ℤ)
    (h1 : jsParseDate (m.caps.getD 3 []) = some t1)
    (h2 : jsParseDate (m.caps.getD 4 []) = some t2) :
    processWorkoutMatch chunk m = .ok (buildSession chunk m t1 t2) := by
  unfold processWorkoutMatch
  rw [h1, h2]

-- ============================================================================
-- C9
-- ============================================================================

/-- C9: duration-to-seconds conversion multiplies by 1 for `"sec"`, 60 for
`"min"`, 3600 for `"hr"`; any unrecognized unit passes the value through
unchanged without an error; and converting `(x, "min")` equals converting
`(x*60, "sec")` for every numeric `x`. -/
theorem secondsFromDuration_unit_conversion (x : ℚ) (u : List Char) :
    secondsFromDuration (.num x) "sec".data = .num x ∧
    secondsFromDuration (.num x) "min".data = .num (x * 60) ∧
    secondsFromDuration (.num x) "hr".data = .num (x * 3600) ∧
    (u ≠ "min".data → u ≠ "hr".data → secondsFromDuration (.num x) u = .num x) ∧
    secondsFromDuration (.num x) "min".data = secondsFromDuration (.num (x * 60)) "sec".data := by
  refine ⟨?_, ?_, ?_, fun hmin hhr => ?_, ?_⟩
  · unfold secondsFromDuration
    rw [if_neg (by decide), if_neg (by decide)]
  · unfold secondsFromDuration
    rw [if_pos rfl]
    rfl
  · unfold secondsFromDuration
    rw [if_neg (by decide), if_pos rfl]
    rfl
  · unfold secondsFromDuration
    rw [if_neg hmin, if_neg hhr]
  · unfold secondsFromDuration
    rw [if_pos rfl, if_neg (by decide), if_neg (by decide)]
    rfl


-- ============================================================================
-- C8
-- ============================================================================

set_option maxHeartbeats 2000000 in
/-- C8: for positive energy and positive duration, `estimateEffort` returns
an integer between 2 and 10, determined from `kcalPerMinute = c / (d / 60)`
by the fixed ascending thresholds; a match with no energy data yields a
session with no `overallEffort` field at all. -/
theorem estimateEffort_range_and_thresholds :
    (∀ c d : ℚ, 0 < c → 0 < d →
      (2 ≤ estimateEffort (.num c) (.num d) ∧ estimateEffort (.num c) (.num d) ≤ 10) ∧
      (c / (d / 60) < 3 → estimateEffort (.num c) (.num d) = 2) ∧
      (3 ≤ c / (d / 60) → c / (d / 60) < 5 → estimateEffort (.num c) (.num d) = 3) ∧
      (5 ≤ c / (d / 60) → c / (d / 60) < 7 → estimateEffort (.num c) (.num d) = 4) ∧
      (7 ≤ c / (d / 60) → c / (d / 60) < 9 → estimateEffort (.num c) (.num d) = 5) ∧
      (9 ≤ c / (d / 60) → c / (d / 60) < 11 → estimateEffort (.num c) (.num d) = 6) ∧
      (11 ≤ c / (d / 60) → c / (d / 60) < 13 → estimateEffort (.num c) (.num d) = 7) ∧
      (13 ≤ c / (d / 60) → c / (d / 60) < 15 → estimateEffort (.num c) (.num d) = 8) ∧
      (15 ≤ c / (d / 60) → c / (d / 60) < 18 → estimateEffort (.num c) (.num d) = 9) ∧
      (18 ≤ c / (d / 60) → estimateEffort (.num c) (.num d) = 10)) ∧
    (∀ (chunk : List Char) (m : MatchRes) (t1 t2 : ℤ),
      extractMetadataValue (contextOf chunk m) activeEnergyId = none →
      (buildSession chunk m t1 t2).overallEffort = none) := by
  constructor
  · intro c d hc hd
    have h60 : (60 : ℚ) ≠ 0 := by norm_num
    have hd60 : (d / 60 : ℚ) ≠ 0 := by positivity
    have hcal : JNum.div (.num c) (JNum.div (.num d) (.num 60)) = .num (c / (d / 60)) := by
      simp only [JNum.div, if_neg h60, if_neg hd60]
    simp only [estimateEffort, hcal, JNum.lt, decide_eq_true_eq]
    split_ifs <;>
      refine ⟨by norm_num, ?_, ?_, ?_, ?_, ?_, ?_, ?_, ?_, ?_⟩ <;>
      · intros
        first | rfl | linarith
  · intro chunk m t1 t2 h
    simp only [buildSession, h, optTruthy]
    simp


-- ============================================================================
-- C10
-- ============================================================================

/-- C10: a zero-valued auxiliary match is treated like an absent one — a
selected distance value of exactly 0 yields a session with no `distance`
field, an active-energy value of exactly 0 yields no `overallEffort` field,
and a walking/running-distance match of 0 falls through to the
cycling-distance identifier instead of winning as first match. -/
theorem zero_auxiliary_treated_as_absent (chunk : List Char) (m : MatchRes) (t1 t2 : ℤ) :
    (workoutDistance (contextOf chunk m) = some (.num 0) →
      (buildSession chunk m t1 t2).distance = none) ∧
    (extractMetadataValue (contextOf chunk m) activeEnergyId = some (.num 0) →
      (buildSession chunk m t1 t2).overallEffort = none) ∧
    (∀ ctx : List Char, extractMetadataValue ctx distWalkRunId = some (.num 0) →
      workoutDistance ctx = extractMetadataValue ctx distCyclingId) := by
  refine ⟨fun hdist => ?_, fun he => ?_, fun ctx h => ?_⟩
  · simp only [buildSession, hdist, optTruthy, JNum.truthy]
    simp
  · simp only [buildSession, he, optTruthy, JNum.truthy]
    simp
  · unfold workoutDistance jsOrNum
    rw [h]
    simp [optTruthy, JNum.truthy]


-- ============================================================================
-- C1
-- ============================================================================

/-- C1 (amended): a record that matches the workout opening pattern but whose
duration fails numeric conversion is NOT dropped — field conversion cannot
throw there (`parseFloat` yields `NaN`), so the record is still emitted, with
`totalDuration = NaN`; the call returns normally. -/
theorem malformed_duration_record_not_dropped (chunk : List Char) (m : MatchRes) (t1 t2 : ℤ)
    (h1 : jsParseDate (m.caps.getD 3 []) = some t1)
    (h2 : jsParseDate (m.caps.getD 4 []) = some t2)
    (hd : parseFloat (m.caps.getD 1 []) = .nan) :
    processWorkoutMatch chunk m = .ok (buildSession chunk m t1 t2) ∧
    (buildSession chunk m t1 t2).totalDuration = .nan ∧
    ∀ ws, processWorkoutMatches chunk [m] ws = .ok (ws ++ [buildSession chunk m t1 t2]) := by
  refine ⟨processWorkoutMatch_ok chunk m t1 t2 h1 h2, ?_, fun ws => ?_⟩
  · rw [buildSession_totalDuration, hd, secondsFromDuration_nan]
    rfl
  · simp [processWorkoutMatches, processWorkoutMatch_ok chunk m t1 t2 h1 h2, Except.bind]

-- ============================================================================
-- C5
-- ============================================================================

/-- C5 (amended): the extractor performs no clamping — timestamps and
duration are taken from the source record as-is, so the invariant
`start ≤ end`, `totalDuration` a non-negative whole-second value equal to
the parsed duration times the declared unit's factor, holds exactly when the
source record itself satisfies it (start ≤ end, numeric duration ≥ 0), and
not in general. -/
theorem workout_invariant_when_source_valid (chunk : List Char) (m : MatchRes)
    (t1 t2 : ℤ) (q : ℚ)
    (h1 : jsParseDate (m.caps.getD 3 []) = some t1)
    (h2 : jsParseDate (m.caps.getD 4 []) = some t2)
    (hle : t1 ≤ t2)
    (hd : parseFloat (m.caps.getD 1 []) = .num q)
    (hq : 0 ≤ q) :
    processWorkoutMatch chunk m = .ok (buildSession chunk m t1 t2) ∧
    (buildSession chunk m t1 t2).startedAt ≤ (buildSession chunk m t1 t2).completedAt ∧
    (buildSession chunk m t1 t2).totalDuration
      = .num ((jsRoundQ (q * unitFactor (m.caps.getD 2 [])) : ℤ) : ℚ) ∧
    0 ≤ jsRoundQ (q * unitFactor (m.caps.getD 2 [])) := by
  refine ⟨processWorkoutMatch_ok chunk m t1 t2 h1 h2, ?_, ?_, ?_⟩
  · rw [buildSession_startedAt, buildSession_completedAt]
    exact hle
  · rw [buildSession_totalDuration, hd, secondsFromDuration_num]
    rfl
  · have hf : 0 < unitFactor (m.caps.getD 2 []) := unitFactor_pos _
    have : (0 : ℚ) ≤ q * unitFactor (m.caps.getD 2 []) + 1 / 2 := by nlinarith
    exact Int.le_floor.mpr (by push_cast; linarith)

-- ============================================================================
-- Scanner lemmas (for C2, C6, C7)
-- ============================================================================

theorem chunksOfAux_flatten {α : Type} (k : ℕ) (hk : 0 < k) :
    ∀ (fuel : ℕ) (l : List α), l.length ≤ fuel → (chunksOfAux k fuel l).flatten = l := by
  intro fuel
  induction fuel with
  | zero =>
    intro l hl
    have : l = [] := List.eq_nil_of_length_eq_zero (Nat.le_zero.mp hl)
    subst this
    rfl
  | succ n ih =>
    intro l hl
    cases l with
    | nil => rfl
    | cons c t =>
      have hl2 : t.length + 1 ≤ n + 1 := by simpa using hl
      have hlen : (List.drop k (c :: t)).length ≤ n := by
        simp only [List.length_drop, List.length_cons]
        omega
      show ((c :: t).take k ++ (chunksOfAux k n ((c :: t).drop k)).flatten) = c :: t
      rw [ih _ hlen]
      exact List.take_append_drop k (c :: t)

theorem chunksOf_flatten {α : Type} (k : ℕ) (hk : 0 < k) (l : List α) :
    (chunksOf k l).flatten = l :=
  chunksOfAux_flatten k hk l.length l le_rfl

theorem scanPairs_flatten :
    ∀ (cs : List (List Char)) (rem : List Char) (consumed : ℕ), cs ≠ [] →
      ((scanPairs cs rem consumed).map Prod.fst).flatten = rem ++ cs.flatten := by
  intro cs
  induction cs with
  | nil => intro rem consumed h; exact absurd rfl h
  | cons c cs ih =>
    intro rem consumed _
    cases cs with
    | nil => simp [scanPairs]
    | cons c2 cs2 =>
      simp only [scanPairs]
      split_ifs with hs
      · simp only [List.map_cons, List.flatten_cons]
        rw [ih _ _ (by simp)]
        rw [← List.append_assoc, List.take_append_drop]
        simp [List.flatten_cons]
      · rw [ih _ _ (by simp)]
        simp [List.flatten_cons]

theorem scanPairs_consumed_bounds :
    ∀ (cs : List (List Char)) (rem : List Char) (consumed : ℕ) (p : List Char × ℕ),
      p ∈ scanPairs cs rem consumed →
      consumed ≤ p.2 ∧ p.2 ≤ consumed + (cs.map List.length).sum := by
  intro cs
  induction cs with
  | nil => intro rem consumed p hp; simp [scanPairs] at hp
  | cons c cs ih =>
    intro rem consumed p hp
    cases cs with
    | nil =>
      simp only [scanPairs, List.mem_singleton] at hp
      subst hp
      simp
    | cons c2 cs2 =>
      simp only [scanPairs] at hp
      split_ifs at hp with hs
      · rcases List.mem_cons.mp hp with h | h
        · subst h
          simp [List.map_cons, List.sum_cons]
        · have := ih _ _ p h
          simp only [List.map_cons, List.sum_cons] at this ⊢
          omega
      · have := ih _ _ p hp
        simp only [List.map_cons, List.sum_cons] at this ⊢
        omega

theorem scanPairs_chain :
    ∀ (cs : List (List Char)) (rem : List Char) (consumed : ℕ),
      List.Chain' (fun p q : List Char × ℕ => p.2 ≤ q.2) (scanPairs cs rem consumed) := by
  intro cs
  induction cs with
  | nil => intro rem consumed; simp [scanPairs]
  | cons c cs ih =>
    intro rem consumed
    cases cs with
    | nil => simp [scanPairs]
    | cons c2 cs2 =>
      simp only [scanPairs]
      split_ifs with hs
      · refine List.chain'_cons'.mpr ⟨?_, ih _ _⟩
        intro q hq
        have hmem : q ∈ scanPairs (c2 :: cs2) _ _ := List.mem_of_mem_head? hq
        exact (scanPairs_consumed_bounds _ _ _ q hmem).1
      · exact ih _ _

-- ============================================================================
-- UTF-8 round trip and C2
-- ============================================================================

set_option maxRecDepth 8000

-- UTF-8 decoder lemmas (for C2)

theorem utf8Step_init (b : ℕ) : utf8Step utf8Init b = processLead b := by
  unfold utf8Step utf8Init
  simp

theorem processLead_ascii {b : ℕ} (h : b ≤ 0x7F) :
    processLead b = (utf8Init, [Char.ofNat b]) := by
  unfold processLead
  rw [if_pos h]

theorem processLead_lead2 {b : ℕ} (h1 : 0xC2 ≤ b) (h2 : b ≤ 0xDF) :
    processLead b = (⟨b - 0xC0, 1, 0x80, 0xBF⟩, []) := by
  unfold processLead
  rw [if_neg (by omega), if_pos ⟨h1, h2⟩]

theorem processLead_lead3 {b : ℕ} (h1 : 0xE0 ≤ b) (h2 : b ≤ 0xEF) :
    processLead b = (⟨b - 0xE0, 2, if b = 0xE0 then 0xA0 else 0x80,
      if b = 0xED then 0x9F else 0xBF⟩, []) := by
  unfold processLead
  rw [if_neg (by omega), if_neg (by omega), if_pos ⟨h1, h2⟩]

theorem processLead_lead4 {b : ℕ} (h1 : 0xF0 ≤ b) (h2 : b ≤ 0xF4) :
    processLead b = (⟨b - 0xF0, 3, if b = 0xF0 then 0x90 else 0x80,
      if b = 0xF4 then 0x8F else 0xBF⟩, []) := by
  unfold processLead
  rw [if_neg (by omega), if_neg (by omega), if_neg (by omega), if_pos ⟨h1, h2⟩]

theorem utf8Step_cont_last {st : Utf8State} {b : ℕ} (h0 : st.bytesNeeded = 1)
    (hl : st.lower ≤ b) (hu : b ≤ st.upper) :
    utf8Step st b = (utf8Init, [Char.ofNat (st.codePoint * 64 + (b - 0x80))]) := by
  unfold utf8Step
  rw [if_neg (by omega), if_pos ⟨hl, hu⟩]
  simp [h0]

theorem utf8Step_cont_more {st : Utf8State} {b : ℕ} (h0 : st.bytesNeeded ≠ 0)
    (h1 : st.bytesNeeded ≠ 1) (hl : st.lower ≤ b) (hu : b ≤ st.upper) :
    utf8Step st b
      = (⟨st.codePoint * 64 + (b - 0x80), st.bytesNeeded - 1, 0x80, 0xBF⟩, []) := by
  unfold utf8Step
  rw [if_neg h0, if_pos ⟨hl, hu⟩]
  simp only [if_neg h1]

theorem utf8DecodeFrom_cons (st : Utf8State) (b : ℕ) (rest : List ℕ) :
    utf8DecodeFrom st (b :: rest)
      = (utf8Step st b).2 ++ utf8DecodeFrom (utf8Step st b).1 rest := rfl

-- complete-sequence decode lemmas: a well-formed encoded character at the
-- start of the stream decodes to exactly that character

theorem decode_seq1 {b : ℕ} (bs : List ℕ) (h : b ≤ 0x7F) :
    utf8DecodeFrom utf8Init (b :: bs) = Char.ofNat b :: utf8DecodeFrom utf8Init bs := by
  rw [utf8DecodeFrom_cons, utf8Step_init, processLead_ascii h]
  rfl

theorem decode_seq2 {b1 b2 : ℕ} (bs : List ℕ)
    (h1 : 0xC2 ≤ b1) (h2 : b1 ≤ 0xDF) (h3 : 0x80 ≤ b2) (h4 : b2 ≤ 0xBF) :
    utf8DecodeFrom utf8Init (b1 :: b2 :: bs)
      = Char.ofNat ((b1 - 0xC0) * 64 + (b2 - 0x80)) :: utf8DecodeFrom utf8Init bs := by
  have e1 : utf8Step utf8Init b1 = (⟨b1 - 0xC0, 1, 0x80, 0xBF⟩, []) := by
    rw [utf8Step_init, processLead_lead2 h1 h2]
  have e2 : utf8Step ⟨b1 - 0xC0, 1, 0x80, 0xBF⟩ b2
      = (utf8Init, [Char.ofNat ((b1 - 0xC0) * 64 + (b2 - 0x80))]) :=
    utf8Step_cont_last rfl h3 h4
  rw [utf8DecodeFrom_cons, e1]
  show utf8DecodeFrom ⟨b1 - 0xC0, 1, 0x80, 0xBF⟩ (b2 :: bs) = _
  rw [utf8DecodeFrom_cons, e2]
  rfl

theorem decode_seq3 {b1 b2 b3 : ℕ} (bs : List ℕ)
    (h1 : 0xE0 ≤ b1) (h2 : b1 ≤ 0xEF)
    (h3 : (if b1 = 0xE0 then 0xA0 else 0x80) ≤ b2) (h4 : b2 ≤ if b1 = 0xED then 0x9F else 0xBF)
    (h5 : 0x80 ≤ b3) (h6 : b3 ≤ 0xBF) :
    utf8DecodeFrom utf8Init (b1 :: b2 :: b3 :: bs)
      = Char.ofNat (((b1 - 0xE0) * 64 + (b2 - 0x80)) * 64 + (b3 - 0x80))
          :: utf8DecodeFrom utf8Init bs := by
  have e1 : utf8Step utf8Init b1
      = (⟨b1 - 0xE0, 2, if b1 = 0xE0 then 0xA0 else 0x80,
          if b1 = 0xED then 0x9F else 0xBF⟩, []) := by
    rw [utf8Step_init, processLead_lead3 h1 h2]
  have e2 : utf8Step ⟨b1 - 0xE0, 2, if b1 = 0xE0 then 0xA0 else 0x80,
        if b1 = 0xED then 0x9F else 0xBF⟩ b2
      = (⟨(b1 - 0xE0) * 64 + (b2 - 0x80), 1, 0x80, 0xBF⟩, []) :=
    utf8Step_cont_more (by simp) (by simp) h3 h4
  have e3 : utf8Step ⟨(b1 - 0xE0) * 64 + (b2 - 0x80), 1, 0x80, 0xBF⟩ b3
      = (utf8Init, [Char.ofNat (((b1 - 0xE0) * 64 + (b2 - 0x80)) * 64 + (b3 - 0x80))]) :=
    utf8Step_cont_last rfl h5 h6
  rw [utf8DecodeFrom_cons, e1]
  show utf8DecodeFrom _ (b2 :: b3 :: bs) = _
  rw [utf8DecodeFrom_cons, e2]
  show utf8DecodeFrom _ (b3 :: bs) = _
  rw [utf8DecodeFrom_cons, e3]
  rfl

theorem decode_seq4 {b1 b2 b3 b4 : ℕ} (bs : List ℕ)
    (h1 : 0xF0 ≤ b1) (h2 : b1 ≤ 0xF4)
    (h3 : (if b1 = 0xF0 then 0x90 else 0x80) ≤ b2) (h4 : b2 ≤ if b1 = 0xF4 then 0x8F else 0xBF)
    (h5 : 0x80 ≤ b3) (h6 : b3 ≤ 0xBF) (h7 : 0x80 ≤ b4) (h8 : b4 ≤ 0xBF) :
    utf8DecodeFrom utf8Init (b1 :: b2 :: b3 :: b4 :: bs)
      = Char.ofNat ((((b1 - 0xF0) * 64 + (b2 - 0x80)) * 64 + (b3 - 0x80)) * 64 + (b4 - 0x80))
          :: utf8DecodeFrom utf8Init bs := by
  have e1 : utf8Step utf8Init b1
      = (⟨b1 - 0xF0, 3, if b1 = 0xF0 then 0x90 else 0x80,
          if b1 = 0xF4 then 0x8F else 0xBF⟩, []) := by
    rw [utf8Step_init, processLead_lead4 h1 h2]
  have e2 : utf8Step ⟨b1 - 0xF0, 3, if b1 = 0xF0 then 0x90 else 0x80,
        if b1 = 0xF4 then 0x8F else 0xBF⟩ b2
      = (⟨(b1 - 0xF0) * 64 + (b2 - 0x80), 2, 0x80, 0xBF⟩, []) :=
    utf8Step_cont_more (by simp) (by simp) h3 h4
  have e3 : utf8Step ⟨(b1 - 0xF0) * 64 + (b2 - 0x80), 2, 0x80, 0xBF⟩ b3
      = (⟨((b1 - 0xF0) * 64 + (b2 - 0x80)) * 64 + (b3 - 0x80), 1, 0x80, 0xBF⟩, []) :=
    utf8Step_cont_more (by simp) (by simp) h5 h6
  have e4 : utf8Step ⟨((b1 - 0xF0) * 64 + (b2 - 0x80)) * 64 + (b3 - 0x80), 1, 0x80, 0xBF⟩ b4
      = (utf8Init, [Char.ofNat ((((b1 - 0xF0) * 64 + (b2 - 0x80)) * 64 + (b3 - 0x80)) * 64
          + (b4 - 0x80))]) :=
    utf8Step_cont_last rfl h7 h8
  rw [utf8DecodeFrom_cons, e1]
  show utf8DecodeFrom _ (b2 :: b3 :: b4 :: bs) = _
  rw [utf8DecodeFrom_cons, e2]
  show utf8DecodeFrom _ (b3 :: b4 :: bs) = _
  rw [utf8DecodeFrom_cons, e3]
  show utf8DecodeFrom _ (b4 :: bs) = _
  rw [utf8DecodeFrom_cons, e4]
  rfl

-- round trip: decoding an unsplit encoding recovers the text exactly

theorem utf8DecodeFrom_encChar (c : Char) (bs : List ℕ) :
    utf8DecodeFrom utf8Init (encChar c ++ bs) = c :: utf8DecodeFrom utf8Init bs := by
  have hval : c.toNat < 0xd800 ∨ (0xdfff < c.toNat ∧ c.toNat < 0x110000) := c.valid
  have hofn : Char.ofNat c.toNat = c := Char.ofNat_toNat c
  set n := c.toNat with hn
  rcases Nat.lt_or_ge n 0x80 with h1 | h1
  · have he : encChar c = [n] := by
      unfold encChar
      rw [if_pos h1]
    rw [he, List.cons_append, List.nil_append, decode_seq1 bs (by omega), hofn]
  · rcases Nat.lt_or_ge n 0x800 with h2 | h2
    · have he : encChar c = [0xC0 + n / 64, 0x80 + n % 64] := by
        unfold encChar
        rw [if_neg (by omega), if_pos h2]
      rw [he]
      show utf8DecodeFrom utf8Init ((0xC0 + n / 64) :: (0x80 + n % 64) :: bs) = _
      rw [decode_seq2 bs (by omega) (by omega) (by omega) (by omega)]
      rw [show (0xC0 + n / 64 - 0xC0) * 64 + (0x80 + n % 64 - 0x80) = n by omega, hofn]
    · rcases Nat.lt_or_ge n 0x10000 with h3 | h3
      · have he : encChar c = [0xE0 + n / 4096, 0x80 + n / 64 % 64, 0x80 + n % 64] := by
          unfold encChar
          rw [if_neg (by omega), if_neg (by omega), if_pos h3]
        rw [he]
        show utf8DecodeFrom utf8Init
          ((0xE0 + n / 4096) :: (0x80 + n / 64 % 64) :: (0x80 + n % 64) :: bs) = _
        rw [decode_seq3 bs (by omega) (by omega) ?_ ?_ (by omega) (by omega)]
        · rw [show ((0xE0 + n / 4096 - 0xE0) * 64 + (0x80 + n / 64 % 64 - 0x80)) * 64
              + (0x80 + n % 64 - 0x80) = n by omega, hofn]
        · split_ifs with hE
          · omega
          · omega
        · split_ifs with hE
          · omega
          · omega
      · have h4 : n < 0x110000 := by omega
        have he : encChar c
            = [0xF0 + n / 262144, 0x80 + n / 4096 % 64, 0x80 + n / 64 % 64, 0x80 + n % 64] := by
          unfold encChar
          rw [if_neg (by omega), if_neg (by omega), if_neg (by omega)]
        rw [he]
        show utf8DecodeFrom utf8Init
          ((0xF0 + n / 262144) :: (0x80 + n / 4096 % 64)
            :: (0x80 + n / 64 % 64) :: (0x80 + n % 64) :: bs) = _
        rw [decode_seq4 bs (by omega) (by omega) ?_ ?_ (by omega) (by omega) (by omega) (by omega)]
        · rw [show (((0xF0 + n / 262144 - 0xF0) * 64 + (0x80 + n / 4096 % 64 - 0x80)) * 64
              + (0x80 + n / 64 % 64 - 0x80)) * 64 + (0x80 + n % 64 - 0x80) = n by omega, hofn]
        · split_ifs with hF
          · omega
          · omega
        · split_ifs with hF
          · omega
          · omega

theorem utf8Decode_utf8Encode (s : List Char) : utf8Decode (utf8Encode s) = s := by
  induction s with
  | nil => rfl
  | cons c t ih =>
    show utf8DecodeFrom utf8Init (encChar c ++ utf8Encode t) = c :: t
    rw [utf8DecodeFrom_encChar]
    exact congrArg (c :: ·) ih

/-- C2 (amended): the scanner's carry-over re-assembly is lossless on the
text it receives, so whenever the byte-level slice boundaries do not split a
multi-byte character — i.e. the byte chunking is the image under UTF-8
encoding of a partition of the text, as is always the case for single-byte
(ASCII) documents — the concatenation, in emission order, of all fragments
handed to the extractors reproduces the document exactly.  When a boundary
does split an encoded character, the independent per-slice decode turns it
into U+FFFD replacement characters and the property fails (see the
counterexample). -/
theorem fragments_concat_eq_document_when_aligned (doc : List Char) (k : ℕ)
    (parts : List (List Char)) (hparts : parts.flatten = doc)
    (hchunks : chunksOf k (utf8Encode doc) = parts.map utf8Encode) :
    (sliceFragments doc k).flatten = doc := by
  unfold sliceFragments
  rw [hchunks, List.map_map]
  have hdec : parts.map (utf8Decode ∘ utf8Encode) = parts := by
    have hfun : utf8Decode ∘ utf8Encode = id := funext (fun s => utf8Decode_utf8Encode s)
    rw [hfun, List.map_id]
  rw [hdec]
  rcases eq_or_ne parts [] with h | h
  · subst h
    rw [← hparts]
    rfl
  · rw [scanPairs_flatten parts [] 0 h, hparts]
    rfl

-- ============================================================================
-- Percentage lemmas (for C6, C7)
-- ============================================================================

theorem jsRoundQ_mono {a b : ℚ} (h : a ≤ b) : jsRoundQ a ≤ jsRoundQ b :=
  Int.floor_le_floor (by linarith)

theorem pct95_mono (size : ℕ) {a b : ℕ} (h : a ≤ b) : pct95 a size ≤ pct95 b size := by
  apply jsRoundQ_mono
  rcases Nat.eq_zero_or_pos size with h0 | h0
  · subst h0
    simp
  · have hs : (0 : ℚ) < size := by exact_mod_cast h0
    have : ((a : ℚ)) ≤ (b : ℚ) := by exact_mod_cast h
    gcongr

theorem pct95_nonneg (e size : ℕ) : 0 ≤ pct95 e size := by
  unfold pct95 jsRoundQ
  apply Int.le_floor.mpr
  have h1 : (0 : ℚ) ≤ (e : ℚ) / (size : ℚ) := by positivity
  push_cast
  linarith

theorem pct95_le_95 {e size : ℕ} (h : e ≤ size) : pct95 e size ≤ 95 := by
  unfold pct95 jsRoundQ
  rcases Nat.eq_zero_or_pos size with h0 | h0
  · subst h0
    have he : e = 0 := Nat.le_zero.mp h
    subst he
    norm_num
  · have hs : (0 : ℚ) < size := by exact_mod_cast h0
    have hr : ((e : ℚ) / size) ≤ 1 := by
      rw [div_le_one hs]
      exact_mod_cast h
    have hlt : ((e : ℚ) / size) * 95 + 1 / 2 < 96 := by nlinarith
    have := Int.floor_lt.mpr (show ((e : ℚ) / size) * 95 + 1 / 2 < ((96 : ℤ) : ℚ) by
      push_cast
      linarith)
    omega

/-- Every fragment's consumed-byte count is bounded by the document length. -/
theorem scanPairs_le_size (doc : List Char) (k : ℕ) (hk : 0 < k) (p : List Char × ℕ)
    (hp : p ∈ scanPairs (chunksOf k doc) [] 0) : p.2 ≤ doc.length := by
  have hb := (scanPairs_consumed_bounds (chunksOf k doc) [] 0 p hp).2
  have hsum : ((chunksOf k doc).map List.length).sum = doc.length := by
    rw [← List.length_flatten, chunksOf_flatten k hk]
  omega

-- ============================================================================
-- C6
-- ============================================================================

/-- C6 (amended): the report emitted after each fragment has phase
`parsing` and percent `Math.round((bytesConsumed / totalBytes) * 95)` —
round-half-up, NOT floor — and that percent always lies between 0 and 95. -/
theorem fragment_reports_round_formula (doc : List Char) (k : ℕ) (hk : 0 < k) :
    ((parseReports doc k).drop 1).dropLast
        = (scanPairs (chunksOf k doc) [] 0).map
            (fun p => (⟨.parsing, pct95 p.2 doc.length⟩ : ParseProgress)) ∧
    ∀ p ∈ scanPairs (chunksOf k doc) [] 0,
      0 ≤ pct95 p.2 doc.length ∧ pct95 p.2 doc.length ≤ 95 := by
  constructor
  · show (((⟨.parsing, 0⟩ : ParseProgress) ::
        ((scanPairs (chunksOf k doc) [] 0).map
          (fun p => (⟨.parsing, pct95 p.2 doc.length⟩ : ParseProgress))
          ++ [⟨.done, 100⟩])).drop 1).dropLast = _
    rw [List.drop_one, List.tail_cons, List.dropLast_concat]
  · intro p hp
    exact ⟨pct95_nonneg p.2 doc.length, pct95_le_95 (scanPairs_le_size doc k hk p hp)⟩

-- ============================================================================
-- C7
-- ============================================================================

/-- C7: on a complete run, the emitted progress reports have non-decreasing
percent values; the run terminates with exactly one `done` report, which has
percent 100 and is the last report; every `parsing` report stays at or below
95 (so only the `done` report is guaranteed to carry 100). -/
theorem progress_reports_monotone_and_terminal (doc : List Char) (k : ℕ)
    (res : HealthImportResult) (rs : List ParseProgress) (hk : 0 < k)
    (h : parseHealthExport doc k = .ok (res, rs)) :
    List.Chain' (fun a b : ParseProgress => a.percent ≤ b.percent) rs ∧
    rs.getLast? = some ⟨.done, 100⟩ ∧
    rs.filter (fun r => decide (r.phase = Phase.done)) = [⟨.done, 100⟩] ∧
    ∀ r ∈ rs, r.phase = .parsing → r.percent ≤ 95 := by
  have hrs : rs = parseReports doc k := by
    unfold parseHealthExport at h
    split at h
    · exact absurd h (by simp)
    · rw [Except.ok.injEq, Prod.mk.injEq] at h
      exact h.2.symm
  subst hrs
  unfold parseReports
  set mids := (scanPairs (chunksOf k doc) [] 0).map
    (fun p => (⟨.parsing, pct95 p.2 doc.length⟩ : ParseProgress)) with hmids
  have hmid_mem : ∀ r ∈ mids, r.phase = Phase.parsing ∧ 0 ≤ r.percent ∧ r.percent ≤ 95 := by
    intro r hr
    rw [hmids] at hr
    obtain ⟨p, hp, hpr⟩ := List.mem_map.mp hr
    subst hpr
    exact ⟨rfl, pct95_nonneg p.2 doc.length, pct95_le_95 (scanPairs_le_size doc k hk p hp)⟩
  refine ⟨?_, ?_, ?_, ?_⟩
  · refine List.chain'_cons'.mpr ⟨?_, ?_⟩
    · intro b hb
      have hbm : b ∈ mids ++ [⟨.done, 100⟩] := List.mem_of_mem_head? hb
      rcases List.mem_append.mp hbm with hm | hm
      · exact (hmid_mem b hm).2.1
      · simp only [List.mem_singleton] at hm
        subst hm
        norm_num
    · refine List.chain'_append.mpr ⟨?_, List.chain'_singleton _, ?_⟩
      · rw [hmids, List.chain'_map]
        exact (scanPairs_chain _ [] 0).imp (fun p q hpq => pct95_mono doc.length hpq)
      · intro x hx y hy
        simp only [List.head?_cons, Option.mem_some_iff] at hy
        subst hy
        obtain ⟨hne, hxeq⟩ := List.mem_getLast?_eq_getLast hx
        have hxm : x ∈ mids := by
          rw [hxeq]
          exact List.getLast_mem hne
        have := (hmid_mem x hxm).2.2
        simp only [ParseProgress.mk.injEq]
        omega
  · rw [List.getLast?_append_cons]
    rfl
  · rw [List.filter_append]
    have h1 : (((⟨.parsing, 0⟩ : ParseProgress) :: mids).filter
        (fun r => decide (r.phase = Phase.done))) = [] := by
      rw [List.filter_eq_nil_iff]
      intro a ha
      rcases List.mem_cons.mp ha with hm | hm
      · subst hm
        simp
      · have := (hmid_mem a hm).1
        simp [this]
    rw [h1]
    rfl
  · intro r hr hphase
    rcases List.mem_cons.mp hr with hm | hm
    · subst hm
      norm_num
    · rcases List.mem_append.mp hm with hm2 | hm2
      · exact (hmid_mem r hm2).2.2
      · simp only [List.mem_singleton] at hm2
        subst hm2
        exact absurd hphase (by simp)

-- ============================================================================
-- C3
-- ============================================================================

instance : IsTotal WorkoutSession (fun a b => a.startedAt ≤ b.startedAt) :=
  ⟨fun a b => le_total a.startedAt b.startedAt⟩

instance : IsTrans WorkoutSession (fun a b => a.startedAt ≤ b.startedAt) :=
  ⟨fun _ _ _ hab hbc => le_trans hab hbc⟩

instance : IsTotal BodyMetric (fun a b => a.date ≤ b.date) :=
  ⟨fun a b => le_total a.date b.date⟩

instance : IsTrans BodyMetric (fun a b => a.date ≤ b.date) :=
  ⟨fun _ _ _ hab hbc => le_trans hab hbc⟩

instance : IsTotal ActivityDay (fun a b => a.date ≤ b.date) :=
  ⟨fun a b => le_total a.date b.date⟩

instance : IsTrans ActivityDay (fun a b => a.date ≤ b.date) :=
  ⟨fun _ _ _ hab hbc => le_trans hab hbc⟩

/-- C3: whenever `parseHealthExport` returns, the returned `workouts` list is
non-decreasing in start timestamp and the returned `bodyMetrics` and
`activityDays` lists are non-decreasing by date. -/
theorem importResult_sorted (doc : List Char) (k : ℕ) (res : HealthImportResult)
    (rs : List ParseProgress) (h : parseHealthExport doc k = .ok (res, rs)) :
    List.Sorted (fun a b : WorkoutSession => a.startedAt ≤ b.startedAt) res.workouts ∧
    List.Sorted (fun a b : BodyMetric => a.date ≤ b.date) res.bodyMetrics ∧
    List.Sorted (fun a b : ActivityDay => a.date ≤ b.date) res.activityDays := by
  have hres : ∃ acc, res = finalize acc := by
    unfold parseHealthExport at h
    split at h
    · exact absurd h (by simp)
    · rw [Except.ok.injEq, Prod.mk.injEq] at h
      exact ⟨_, h.1.symm⟩
  obtain ⟨acc, hacc⟩ := hres
  subst hacc
  exact ⟨List.sorted_insertionSort _ _, List.sorted_insertionSort _ _,
    List.sorted_insertionSort _ _⟩

-- ============================================================================
-- Concrete evaluations: witnesses and counterexamples
-- ============================================================================

section ConcreteEval

attribute [local semireducible] Rat.add Rat.mul Rat.sub Rat.inv Rat.ofScientific

theorem secondsFromDuration_witness :
    "furlong".data ≠ "min".data ∧
    secondsFromDuration (.num 7) "furlong".data = .num 7 :=
  ⟨by decide,
   (secondsFromDuration_unit_conversion 7 "furlong".data).2.2.2.1 (by decide) (by decide)⟩

theorem estimateEffort_witness :
    (0 : ℚ) < 300 ∧ (0 : ℚ) < 1800 ∧
    2 ≤ estimateEffort (.num 300) (.num 1800) ∧ estimateEffort (.num 300) (.num 1800) ≤ 10 :=
  ⟨by norm_num, by norm_num,
   (estimateEffort_range_and_thresholds.1 300 1800 (by norm_num) (by norm_num)).1.1,
   (estimateEffort_range_and_thresholds.1 300 1800 (by norm_num) (by norm_num)).1.2⟩

theorem zero_auxiliary_witness :
    workoutDistance
        (contextOf "type=\"HKQuantityTypeIdentifierDistanceCycling\" sum=\"0\"".data
          ⟨0, [], 54⟩)
      = some (.num 0) ∧
    (buildSession "type=\"HKQuantityTypeIdentifierDistanceCycling\" sum=\"0\"".data
        ⟨0, [], 54⟩ 0 0).distance = none ∧
    (buildSession "type=\"HKQuantityTypeIdentifierActiveEnergyBurned\" sum=\"0\"".data
        ⟨0, [], 58⟩ 0 0).overallEffort = none :=
  ⟨by decide,
   (zero_auxiliary_treated_as_absent _ ⟨0, [], 54⟩ 0 0).1 (by decide),
   (zero_auxiliary_treated_as_absent _ ⟨0, [], 58⟩ 0 0).2.1 (by decide)⟩

theorem malformed_duration_record_witness :
    parseFloat "abc".data = JNum.nan ∧
    (buildSession []
        ⟨0, [[], "abc".data, "min".data, "2024-01-15T08:00:00Z".data,
             "2024-01-15T08:30:00Z".data], 0⟩
        1705305600000 1705307400000).totalDuration = JNum.nan :=
  ⟨by decide,
   (malformed_duration_record_not_dropped []
      ⟨0, [[], "abc".data, "min".data, "2024-01-15T08:00:00Z".data,
           "2024-01-15T08:30:00Z".data], 0⟩
      1705305600000 1705307400000 (by decide) (by decide) (by decide)).2.1⟩

set_option maxRecDepth 40000 in
/-- C1 counterexample (the spec's concrete scenario B): on the document whose
only record is a workout with duration value `"abc"`, `parseHealthExport`
returns normally but with ONE workout (whose `totalDuration` is `NaN`) —
not with an empty workout list. -/
theorem scenarioB_yields_one_nan_workout :
    (parseHealthExport
        ("<Workout workoutActivityType=\"HKWorkoutActivityTypeRunning\" duration=\"abc\" durationUnit=\"min\" startDate=\"2024-01-15T08:00:00Z\" endDate=\"2024-01-15T08:30:00Z\"/>".data)
        (10 * 1024 * 1024)).toOption.map
      (fun r => (r.1.workouts.map WorkoutSession.totalDuration, r.1.workouts.length))
      = some ([JNum.nan], 1) := by
  rfl

/-- C2 counterexample: the document consisting of the single two-byte
character é, sliced with a one-byte chunk size, is decoded slice-by-slice
into two U+FFFD replacement characters, so the concatenation of the emitted
fragments does not reproduce the document. -/
theorem multibyte_boundary_loses_characters :
    utf8Encode ['é'] = [0xC3, 0xA9] ∧
    (sliceFragments ['é'] 1).flatten = [replChar, replChar] ∧
    ([replChar, replChar] : List Char) ≠ ['é'] := by
  refine ⟨by decide, by decide, by decide⟩

theorem fragments_aligned_witness :
    (["<a/".data, "><b".data, "/>".data] : List (List Char)).flatten = "<a/><b/>".data ∧
    chunksOf 3 (utf8Encode "<a/><b/>".data)
      = (["<a/".data, "><b".data, "/>".data] : List (List Char)).map utf8Encode ∧
    (sliceFragments "<a/><b/>".data 3).flatten = "<a/><b/>".data :=
  ⟨by decide, by decide,
   fragments_concat_eq_document_when_aligned "<a/><b/>".data 3
     ["<a/".data, "><b".data, "/>".data] (by decide) (by decide)⟩

theorem importResult_sorted_witness :
    List.Sorted (fun a b : WorkoutSession => a.startedAt ≤ b.startedAt)
      (HealthImportResult.mk [] [] []).workouts :=
  (importResult_sorted [] 1 ⟨[], [], []⟩ [⟨.parsing, 0⟩, ⟨.done, 100⟩] rfl).1

set_option maxRecDepth 40000 in
/-- C4: evidence for the body-fat destructuring bug — a fragment with two
body-mass records and one body-fat record for the same date does not merge
into one entry; extraction aborts with the modelled `RangeError` because the
body-fat loop reads its date from a capture group that does not exist. -/
theorem bodyFat_record_aborts_extraction :
    extractBodyMetricsFromChunk
      ("<Record type=\"HKQuantityTypeIdentifierBodyMass\" value=\"70\" unit=\"kg\" startDate=\"2024-01-15T08:00:00Z\"/><Record type=\"HKQuantityTypeIdentifierBodyMass\" value=\"71\" unit=\"kg\" startDate=\"2024-01-15T09:00:00Z\"/><Record type=\"HKQuantityTypeIdentifierBodyFatPercentage\" value=\"0.25\" startDate=\"2024-01-15T10:00:00Z\"/>".data)
      [] = .error .invalidTime := by
  rfl

set_option maxRecDepth 40000 in
/-- C5 counterexample: a workout record whose `endDate` precedes its
`startDate` is still emitted, with `startedAt > completedAt` — the claimed
invariant is not enforced by the extractor. -/
theorem workout_reversed_timestamps_emitted :
    (extractWorkoutsFromChunk
        ("<Workout workoutActivityType=\"HKWorkoutActivityTypeRunning\" duration=\"30\" durationUnit=\"min\" startDate=\"2024-01-15T09:00:00Z\" endDate=\"2024-01-15T08:00:00Z\"/>".data)
        []).toOption.map (List.map (fun s => (s.startedAt, s.completedAt)))
      = some [(1705309200000, 1705305600000)] ∧
    ¬ ((1705309200000 : ℤ) ≤ 1705305600000) := by
  constructor
  · rfl
  · decide

theorem workout_invariant_witness :
    (buildSession []
        ⟨0, [[], "30".data, "min".data, "2024-01-15T08:00:00Z".data,
             "2024-01-15T08:30:00Z".data], 0⟩
        1705305600000 1705307400000).startedAt
      ≤ (buildSession []
        ⟨0, [[], "30".data, "min".data, "2024-01-15T08:00:00Z".data,
             "2024-01-15T08:30:00Z".data], 0⟩
        1705305600000 1705307400000).completedAt :=
  (workout_invariant_when_source_valid []
    ⟨0, [[], "30".data, "min".data, "2024-01-15T08:00:00Z".data,
         "2024-01-15T08:30:00Z".data], 0⟩
    1705305600000 1705307400000 30
    (by decide) (by decide) (by decide) (by decide) (by norm_num)).2.1

/-- C6 counterexample: on the 4-byte document `"/>ab"` with chunk size 2 the
first fragment's report has percent `Math.round((2/4)*95) = 48`, while the
claimed formula `floor((2/4)*95)` gives 47. -/
theorem fragment_report_percent_not_floor :
    parseReports "/>ab".data 2
        = [⟨.parsing, 0⟩, ⟨.parsing, 48⟩, ⟨.parsing, 95⟩, ⟨.done, 100⟩] ∧
    Int.floor (((2 : ℚ) / 4) * 95) = 47 ∧ (48 : ℤ) ≠ 47 := by
  refine ⟨by decide, ?_, by decide⟩
  rw [Int.floor_eq_iff]
  constructor <;> norm_num

theorem fragment_reports_witness :
    0 ≤ pct95 2 4 ∧ pct95 2 4 ≤ 95 :=
  ⟨((fragment_reports_round_formula "/>ab".data 2 (by norm_num)).2
      ("/>".data, 2) (by decide)).1,
   ((fragment_reports_round_formula "/>ab".data 2 (by norm_num)).2
      ("/>".data, 2) (by decide)).2⟩

set_option maxRecDepth 40000 in
theorem progress_reports_witness :
    List.Chain' (fun a b : ParseProgress => a.percent ≤ b.percent)
      [⟨.parsing, 0⟩, ⟨.parsing, 95⟩, ⟨.done, 100⟩] :=
  (progress_reports_monotone_and_terminal "<a/>".data 8 ⟨[], [], []⟩
    [⟨.parsing, 0⟩, ⟨.parsing, 95⟩, ⟨.done, 100⟩] (by norm_num) (by rfl)).1

end ConcreteEval
